import Mathlib

/-!
Verification development for the BESC token-scanner bot.

The repository is a token-risk-scoring bot.  The definitions below are a
shallow embedding, in Lean, of the heuristic core of the program:

* `getTopHolders` / `holderPercent` — holder percentage math
  (holders.js, BigInt iteration);
* `classifyTransferRevert` / `classifyRouterSwapRevert` — honeypot probe
  classification (analyzer.js, `simulateTrading` / `simulateRouterSwap`);
* `checkLockerStatus` — LP locker lock aggregation (analyzer iteration
  with the full locker ABI, `checkLockerStatus`);
* `calculateGiniCoefficient` / `analyzeHolderDistribution` — holder
  distribution statistics (`analyzeHolderDistribution`);
* `calculateComprehensiveRisk` — the risk aggregator
  (`calculateComprehensiveRisk` / `generateTraderInsights`).

JavaScript `Number` arithmetic on the small heuristic quantities is
modelled with exact rationals (`ℚ`), BigInt arithmetic with `ℕ`, and
`Math.round` with `jsRound` below.  Strings are modelled as Lean
`String`s; `String.toLowerCase` as ASCII char-wise lowering and
`String.includes` as substring containment.
-/

/-- ASCII lowering of a string, modelling JavaScript `toLowerCase` on the
ASCII strings the scanner compares. -/
def lowerStr (s : String) : String :=
  String.mk (s.data.map Char.toLower)

/-- Substring test on character lists: does `pat` occur contiguously in the
list? Models JavaScript `String.includes`. -/
def charsContain (pat : List Char) : List Char → Bool
  | [] => pat.isEmpty
  | c :: t => pat.isPrefixOf (c :: t) || charsContain pat t

/-- `strContains s pat` models JavaScript `s.includes(pat)`. -/
def strContains (s pat : String) : Bool :=
  charsContain pat.data s.data

/-- JavaScript `Math.round` on the non-negative rationals the scanner
rounds: round half toward positive infinity. -/
def jsRound (q : ℚ) : ℤ :=
  ⌊q + 1/2⌋

/-! ## Holder percentages (holders.js, BigInt iteration, `getTopHolders`)

```js
const balanceBN = BigInt(h.value || "0");
let percent = 0;
if (supplyBN && supplyBN > 0n) {
  percent = Number((balanceBN * 10000n) / supplyBN) / 100; // 2 decimal places
}
```
-/

/-- A raw holder item from the explorer API: address hash and raw integer
balance (`h.value`). -/
structure RawHolder where
  address : String
  value : ℕ
deriving DecidableEq

/-- A processed holder entry as produced by `getTopHolders`. -/
structure HolderEntry where
  address : String
  balance : ℕ
  percent : ℚ
deriving DecidableEq

/-- Percent-of-supply computation of `getTopHolders`: BigInt scaling by
10000, BigInt division by the raw supply, then division by 100. -/
def holderPercent (balance supply : ℕ) : ℚ :=
  if 0 < supply then ((balance * 10000 / supply : ℕ) : ℚ) / 100 else 0

/-- `getTopHolders` (BigInt iteration): map each raw item to an entry with
the scaled-integer percentage, drop dust wallets below 0.01%, keep the
first `limit`. -/
def getTopHolders (items : List RawHolder) (limit supply : ℕ) : List HolderEntry :=
  ((items.map fun h =>
      { address := h.address, balance := h.value,
        percent := holderPercent h.value supply : HolderEntry }).filter
    fun h => (1 : ℚ)/100 ≤ h.percent).take limit

/-! ## Honeypot probe classification (analyzer.js)

`simulateTrading` classifies a failed direct-transfer probe as expected
only when the revert reason mentions an insufficient balance:

```js
if (transferReason.toLowerCase().includes("insufficient balance") ||
    transferReason.toLowerCase().includes("transfer amount exceeds")) { ... }
```

`simulateRouterSwap` classifies a failed buy/sell probe against its own
list of safe errors:

```js
const safeErrors = ["insufficient eth amount", "insufficient liquidity",
  "transfer amount exceeds balance", "insufficient allowance", "expired"];
if (safeErrors.some(err => reason.toLowerCase().includes(err))) { ... }
```
-/

/-- Outcome classification of a single simulation probe. -/
inductive SimResult
  | passed
  | expected
  | critical
  | inconclusive
deriving DecidableEq

/-- The three probe operations of `simulateTrading`. -/
inductive Probe
  | transfer
  | buy
  | sell
deriving DecidableEq

/-- `safeErrors` of `simulateRouterSwap`. -/
def swapSafeErrors : List String :=
  ["insufficient eth amount", "insufficient liquidity",
   "transfer amount exceeds balance", "insufficient allowance", "expired"]

/-- Patterns the transfer-probe handler of `simulateTrading` treats as an
expected failure. -/
def transferSafePatterns : List String :=
  ["insufficient balance", "transfer amount exceeds"]

/-- Classification of a reverted router-swap (buy or sell) probe. -/
def classifyRouterSwapRevert (reason : String) : SimResult :=
  if swapSafeErrors.any (fun e => strContains (lowerStr reason) e) then
    SimResult.expected
  else
    SimResult.critical

/-- Classification of a reverted direct-transfer probe. -/
def classifyTransferRevert (reason : String) : SimResult :=
  if strContains (lowerStr reason) "insufficient balance" ||
      strContains (lowerStr reason) "transfer amount exceeds" then
    SimResult.expected
  else
    SimResult.critical

/-- Classification of a reverted probe, per probe operation. -/
def classifyProbeRevert : Probe → String → SimResult
  | Probe.transfer, r => classifyTransferRevert r
  | Probe.buy, r => classifyRouterSwapRevert r
  | Probe.sell, r => classifyRouterSwapRevert r

/-- The benign patterns the probe handler for operation `p` actually
recognises. -/
def probeSafeList : Probe → List String
  | Probe.transfer => transferSafePatterns
  | Probe.buy => swapSafeErrors
  | Probe.sell => swapSafeErrors

/-- The spec's benign-pattern list, stated in its words for comparison
with the code's lists: insufficient balance/allowance, deadline expired,
low liquidity. -/
def specBenignPatterns : List String :=
  ["insufficient balance", "insufficient allowance", "deadline expired",
   "low liquidity"]

/-- Case-insensitive substring match of a revert reason against the
spec's benign-pattern list. -/
def specBenignMatch (reason : String) : Bool :=
  specBenignPatterns.any fun p => strContains (lowerStr reason) p

/-! ## LP locker lock aggregation (`checkLockerStatus`)

```js
for (const lock of userLocks) {
  if (!lock.unlocked && lock.token.toLowerCase() === lpPair.toLowerCase()) {
    hasActiveLocks = true;
    totalLockedAmount += lock.amount;
    if (earliestUnlockTime === 0 || lock.unlockTime < earliestUnlockTime) {
      earliestUnlockTime = Number(lock.unlockTime);
    }
  }
}
if (hasActiveLocks && totalLPSupply > 0n) {
  const lockedPercent = Number((totalLockedAmount * 10000n) / totalLPSupply) / 100;
  return { locked: true, lockedPercent: Math.min(lockedPercent, 100), ... };
}
return { locked: false, lockedAmount: 0n, lockedPercent: 0, ... };
```
-/

/-- A locker `Lock` record (amount, unlockTime, token, unlocked; the
`purpose` and `beneficiary` fields are never read by the scanner). -/
structure Lock where
  amount : ℕ
  unlockTime : ℕ
  token : String
  unlocked : Bool
deriving DecidableEq

/-- Result of the locker status check.  The human-readable `unlockDate`
string (a locale-formatted date) is represented by the raw
`unlockTime` it is derived from. -/
structure LockStatus where
  locked : Bool
  lockedAmount : ℕ
  lockedPercent : ℚ
  unlockTime : ℕ
  lockCount : ℕ
deriving DecidableEq

/-- The loop filter of `checkLockerStatus`: a lock is counted when its
`unlocked` flag is false and its token equals the LP pair
case-insensitively. -/
def isCountedLock (lpPair : String) (l : Lock) : Bool :=
  !l.unlocked && (lowerStr l.token == lowerStr lpPair)

/-- The locks `checkLockerStatus` accumulates for the given pair. -/
def countedLocks (lpPair : String) (locks : List Lock) : List Lock :=
  locks.filter (isCountedLock lpPair)

/-- The `earliestUnlockTime` accumulator of the loop: starts at 0 and
takes a lock's unlockTime when it is the first or strictly smaller. -/
def earliestUnlock (locks : List Lock) : ℕ :=
  locks.foldl (fun acc l => if acc = 0 ∨ l.unlockTime < acc then l.unlockTime else acc) 0

/-- `checkLockerStatus` over the lock list returned by the locker
contract for the LP pair. -/
def checkLockerStatus (lpPair : String) (locks : List Lock) (totalLPSupply : ℕ) : LockStatus :=
  let active := countedLocks lpPair locks
  let totalLockedAmount := (active.map Lock.amount).sum
  if active.isEmpty || totalLPSupply = 0 then
    { locked := false, lockedAmount := 0, lockedPercent := 0,
      unlockTime := 0, lockCount := 0 }
  else
    { locked := true, lockedAmount := totalLockedAmount,
      lockedPercent :=
        min (((totalLockedAmount * 10000 / totalLPSupply : ℕ) : ℚ) / 100) 100,
      unlockTime := earliestUnlock active,
      lockCount := active.length }

/-! ## Holder distribution statistics (`analyzeHolderDistribution`,
`calculateGiniCoefficient`)

```js
const liveHolders = allHolders.filter(h =>
  !h.address.toLowerCase().includes("dead") &&
  h.address.toLowerCase() !== "0x0000000000000000000000000000000000000000" &&
  h.address.toLowerCase() !== tokenAddress.toLowerCase());
const top10Percent = liveHolders.slice(0, 10).reduce((sum, h) => sum + h.percent, 0);
const giniCoefficient = calculateGiniCoefficient(liveHolders);
return { top10Concentration: top10Percent,
         giniCoefficient: Math.round(giniCoefficient * 100) / 100,
         totalLiveHolders: liveHolders.length,
         healthyDistribution: top10Percent < 40 && holderCount > 50 && giniCoefficient < 0.7,
         displayHolders: liveHolders.slice(0, 8) };
```

and the sorted cumulative-share Gini:

```js
const sortedHolders = [...holders].sort((a, b) => (b.amount || 0) - (a.amount || 0));
for (let i = 0; i < sortedHolders.length; i++) {
  const share = (sortedHolders[i].amount || 0) / totalSupply;
  cumulativeShare += share;
  accumulator += (cumulativeShare - (i + 1) / sortedHolders.length) * share;
}
return Math.abs(accumulator);
```
-/

/-- A holder record as consumed by the distribution analyzer: address,
raw amount, percent of supply. -/
structure HolderRec where
  address : String
  amount : ℚ
  percent : ℚ
deriving DecidableEq

/-- Descending sort of the holder amounts (the JS comparator
`(a, b) => b.amount - a.amount`). -/
def sortAmountsDesc (l : List ℚ) : List ℚ :=
  l.insertionSort (fun a b => b ≤ a)

instance : IsTotal ℚ (fun a b => b ≤ a) :=
  ⟨fun a b => le_total b a⟩

instance : IsTrans ℚ (fun a b => b ≤ a) :=
  ⟨fun _ _ _ h h2 => le_trans h2 h⟩

/-- The accumulator loop of `calculateGiniCoefficient`: runs over the
descending shares, tracking the 1-based index `i + 1` and the cumulative
share, summing `(cumulativeShare - (i+1)/n) * share`. -/
def lorenzAcc (n : ℕ) (total : ℚ) : List ℚ → ℕ → ℚ → ℚ
  | [], _, _ => 0
  | a :: rest, i, cum =>
    (cum + a / total - ((i : ℚ) + 1) / (n : ℚ)) * (a / total) +
      lorenzAcc n total rest (i + 1) (cum + a / total)

/-- `calculateGiniCoefficient` (sorted cumulative-share iteration). -/
def calculateGiniCoefficient (holders : List HolderRec) : ℚ :=
  if holders.isEmpty then 0
  else
    let total := (holders.map HolderRec.amount).sum
    if total = 0 then 0
    else |lorenzAcc holders.length total (sortAmountsDesc (holders.map HolderRec.amount)) 0 0|

/-- The canonical zero address. -/
def zeroAddress : String := "0x0000000000000000000000000000000000000000"

/-- The live-holder filter of `analyzeHolderDistribution`: drop burn
addresses (any address containing "dead"), the zero address, and the
analyzed token contract's own address, all case-insensitively. -/
def isLiveHolder (tokenAddress : String) (h : HolderRec) : Bool :=
  !strContains (lowerStr h.address) "dead" &&
    (lowerStr h.address != zeroAddress) &&
    (lowerStr h.address != lowerStr tokenAddress)

/-- The live holders used for concentration statistics. -/
def liveHolders (tokenAddress : String) (allHolders : List HolderRec) : List HolderRec :=
  allHolders.filter (isLiveHolder tokenAddress)

/-- Result record of `analyzeHolderDistribution`. -/
structure HolderDistribution where
  top10Concentration : ℚ
  giniCoefficient : ℚ
  totalLiveHolders : ℕ
  healthyDistribution : Bool
  displayHolders : List HolderRec
deriving DecidableEq

/-- `analyzeHolderDistribution` over an already-fetched holder list. -/
def analyzeHolderDistribution (tokenAddress : String) (allHolders : List HolderRec) :
    HolderDistribution :=
  let live := liveHolders tokenAddress allHolders
  let top10Percent := ((live.take 10).map HolderRec.percent).sum
  let gini := calculateGiniCoefficient live
  { top10Concentration := top10Percent,
    giniCoefficient := (jsRound (gini * 100) : ℚ) / 100,
    totalLiveHolders := live.length,
    healthyDistribution := decide (top10Percent < 40 ∧ 50 < live.length ∧ gini < 7/10),
    displayHolders := live.take 8 }

/-! ## The risk aggregator (`calculateComprehensiveRisk`,
`generateTraderInsights`)

The aggregator consumes the structured fetcher outputs.  Only the fields
it actually reads are modelled, plus `lpAgeDays`, the placeholder field
that `analyzeLiquidity` fills with `Math.floor(Math.random() * 7)`.
-/

/-- Ownership fetcher output fields read by the aggregator. -/
structure OwnershipIn where
  ownershipRisk : String
  renounceable : Bool
deriving DecidableEq

/-- Tax fetcher output fields read by the aggregator. -/
structure TaxesIn where
  buyTax : ℚ
  sellTax : ℚ
  hasHighLimits : Bool
deriving DecidableEq

/-- Liquidity fetcher output fields read by the aggregator, plus
`lpAgeDays`, which `analyzeLiquidity` derives from `Math.random()`. -/
structure LiquidityIn where
  hasLiquidity : Bool
  lpPercentBurned : ℚ
  lpAgeDays : ℕ
deriving DecidableEq

/-- Holder-distribution fields read by the aggregator. -/
structure HolderIn where
  top10Concentration : ℚ
  healthyDistribution : Bool
deriving DecidableEq

/-- Simulation output field read by the aggregator. -/
structure SimulationIn where
  honeypotRisk : String
deriving DecidableEq

/-- Trading-activity fields read by the aggregator. -/
structure ActivityIn where
  hasHealthyActivity : Bool
  devActivity : String
  uniqueBuyers24h : ℕ
deriving DecidableEq

/-- Security-analysis fields read by the aggregator. -/
structure SecurityIn where
  hasDangerousFeatures : Bool
  securityScore : ℤ
deriving DecidableEq

/-- Contract-analysis fields read by the aggregator. -/
structure ContractIn where
  complexityScore : ℚ
  canMint : Bool
deriving DecidableEq

/-- The aggregator's full input record. -/
structure AnalysisIn where
  taxes : TaxesIn
  liquidity : LiquidityIn
  holderAnalysis : HolderIn
  ownership : OwnershipIn
  simulation : SimulationIn
  activity : ActivityIn
  security : SecurityIn
  contractAnalysis : ContractIn
deriving DecidableEq

/-- Ownership penalty band: `ownershipRisk === "High"` adds 15,
`=== "Medium"` adds 8. -/
def ownershipBand (r : String) : ℤ :=
  if r = "High" then 15 else if r = "Medium" then 8 else 0

/-- Ownership penalty of the aggregator. -/
def ownershipPenalty (o : OwnershipIn) : ℤ :=
  ownershipBand o.ownershipRisk

/-- Tax penalty: either tax above 15 adds 20, else either above 10
adds 12. -/
def taxPenalty (t : TaxesIn) : ℤ :=
  if 15 < t.buyTax ∨ 15 < t.sellTax then 20
  else if 10 < t.buyTax ∨ 10 < t.sellTax then 12
  else 0

/-- Limits penalty: missing reasonable max-tx/max-wallet limits adds 8. -/
def limitsPenalty (t : TaxesIn) : ℤ :=
  if t.hasHighLimits then 0 else 8

/-- Liquidity penalty: no pair 20, burn below 25% 15, burn below 51% 8. -/
def liquidityPenalty (l : LiquidityIn) : ℤ :=
  if !l.hasLiquidity then 20
  else if l.lpPercentBurned < 25 then 15
  else if l.lpPercentBurned < 51 then 8
  else 0

/-- Holder-concentration penalty: top-10 above 60% adds 15, above 40%
adds 8. -/
def concentrationPenalty (h : HolderIn) : ℤ :=
  if 60 < h.top10Concentration then 15
  else if 40 < h.top10Concentration then 8
  else 0

/-- Honeypot penalty band on the honeypot-risk string. -/
def honeypotBand (s : String) : ℤ :=
  if strContains s "HIGH" then 15
  else if strContains s "POTENTIAL" then 8
  else 0

/-- Honeypot penalty of the aggregator. -/
def honeypotPenalty (s : SimulationIn) : ℤ :=
  honeypotBand s.honeypotRisk

/-- Security penalty: dangerous features add 8, a security score below 5
adds 2. -/
def securityPenalty (s : SecurityIn) : ℤ :=
  (if s.hasDangerousFeatures then 8 else 0) +
    (if s.securityScore < 5 then 2 else 0)

/-- Dev-activity penalty band: a flagged dev-activity string adds 2. -/
def devBand (d : String) : ℤ :=
  if strContains d "🚨" then 2 else 0

/-- Activity penalty: unhealthy activity adds 3, flagged dev activity
adds 2. -/
def activityPenalty (a : ActivityIn) : ℤ :=
  (if a.hasHealthyActivity then 0 else 3) + devBand a.devActivity

/-- Contract penalty: complexity above 7 adds 3, mint capability adds 2. -/
def contractPenalty (c : ContractIn) : ℤ :=
  (if 7 < c.complexityScore then 3 else 0) + (if c.canMint then 2 else 0)

/-- The aggregator's raw score: the sequential `score += ...` blocks of
`calculateComprehensiveRisk`, as a sum of the independent penalties. -/
def riskScore (a : AnalysisIn) : ℤ :=
  ownershipPenalty a.ownership + taxPenalty a.taxes + limitsPenalty a.taxes +
    liquidityPenalty a.liquidity + concentrationPenalty a.holderAnalysis +
    honeypotPenalty a.simulation + securityPenalty a.security +
    activityPenalty a.activity + contractPenalty a.contractAnalysis

/-- The fixed normalization maximum `maxScore = 115`. -/
def maxScore : ℤ := 115

/-- `Math.round((score / maxScore) * 100)`. -/
def riskPercentage (a : AnalysisIn) : ℤ :=
  jsRound ((riskScore a : ℚ) / (maxScore : ℚ) * 100)

/-- The tier thresholds: percentage at least 60 is HIGH RISK, at least 35
MEDIUM RISK, else LOW RISK. -/
def riskLevel (p : ℤ) : String :=
  if 60 ≤ p then "HIGH RISK" else if 35 ≤ p then "MEDIUM RISK" else "LOW RISK"

/-- The tier emoji, same thresholds. -/
def riskEmoji (p : ℤ) : String :=
  if 60 ≤ p then "🔴" else if 35 ≤ p then "🟡" else "🟢"

/-- The tier color, same thresholds. -/
def riskColor (p : ℤ) : String :=
  if 60 ≤ p then "danger" else if 35 ≤ p then "warning" else "success"

/-- One trader-insight entry of `generateTraderInsights`.  Each
constructor stands for one pushed insight string; constructors carry the
numeric values interpolated into the string. -/
inductive Insight
  | ownershipRenounced
  | lpBurnedPermanent
  | healthyDistributionNote
  | lowTaxes
  | noHoneypotIndicators
  | highTaxWarning
  | topTenControl (concentration : ℚ)
  | lowLimitsWarning
  | swingTrading
  | mediumRiskCaution
  | highRiskWarning
  | strongCommunity (buyers : ℕ)
deriving DecidableEq

/-- `generateTraderInsights`: the ordered list of pushed insights
(positive signals, then warnings, then the recommendation keyed off the
risk percentage, then the community note). -/
def generateTraderInsights (a : AnalysisIn) (riskPct : ℤ) : List Insight :=
  (if a.ownership.renounceable then [Insight.ownershipRenounced] else []) ++
  (if 51 ≤ a.liquidity.lpPercentBurned then [Insight.lpBurnedPermanent] else []) ++
  (if a.holderAnalysis.healthyDistribution then [Insight.healthyDistributionNote] else []) ++
  (if a.taxes.buyTax ≤ 5 ∧ a.taxes.sellTax ≤ 5 then [Insight.lowTaxes] else []) ++
  (if a.simulation.honeypotRisk = "✅ NO HONEYPOT INDICATORS" then
    [Insight.noHoneypotIndicators] else []) ++
  (if 10 < a.taxes.buyTax ∨ 10 < a.taxes.sellTax then [Insight.highTaxWarning] else []) ++
  (if 40 < a.holderAnalysis.top10Concentration then
    [Insight.topTenControl a.holderAnalysis.top10Concentration] else []) ++
  (if a.taxes.hasHighLimits then [] else [Insight.lowLimitsWarning]) ++
  (if riskPct < 35 then [Insight.swingTrading]
   else if riskPct < 60 then [Insight.mediumRiskCaution]
   else [Insight.highRiskWarning]) ++
  (if 20 < a.activity.uniqueBuyers24h then
    [Insight.strongCommunity a.activity.uniqueBuyers24h] else [])

/-- The aggregator's terminal artifact.  `factors` is a list of factor
strings; in this aggregator iteration nothing is ever pushed into it. -/
structure RiskAssessment where
  score : ℤ
  riskPercentage : ℤ
  level : String
  emoji : String
  color : String
  factors : List String
  insights : List Insight
deriving DecidableEq

/-- `calculateComprehensiveRisk`. -/
def calculateComprehensiveRisk (a : AnalysisIn) : RiskAssessment :=
  let score := riskScore a
  let pct := jsRound ((score : ℚ) / (maxScore : ℚ) * 100)
  { score := score,
    riskPercentage := pct,
    level := riskLevel pct,
    emoji := riskEmoji pct,
    color := riskColor pct,
    factors := [],
    insights := generateTraderInsights a pct }

/-- A fully benign analysis input except that no liquidity pair was
found: renounced ownership, zero taxes, reasonable limits, low holder
concentration, clean simulations, healthy activity, no dangerous
features, small contract. -/
def benignNoLpInput : AnalysisIn :=
  { taxes := { buyTax := 0, sellTax := 0, hasHighLimits := true },
    liquidity := { hasLiquidity := false, lpPercentBurned := 0, lpAgeDays := 0 },
    holderAnalysis := { top10Concentration := 10, healthyDistribution := true },
    ownership := { ownershipRisk := "None (Renounced)", renounceable := true },
    simulation := { honeypotRisk := "✅ NO HONEYPOT INDICATORS - Simulations passed" },
    activity := { hasHealthyActivity := true,
                  devActivity := "✅ No suspicious dev activity", uniqueBuyers24h := 10 },
    security := { hasDangerousFeatures := false, securityScore := 10 },
    contractAnalysis := { complexityScore := 1/2, canMint := false } }

/-- A representative healthy-token analysis input, used to instantiate
universally quantified theorems at a concrete point. -/
def baseInput : AnalysisIn :=
  { taxes := { buyTax := 0, sellTax := 0, hasHighLimits := true },
    liquidity := { hasLiquidity := true, lpPercentBurned := 80, lpAgeDays := 3 },
    holderAnalysis := { top10Concentration := 10, healthyDistribution := true },
    ownership := { ownershipRisk := "None (Renounced)", renounceable := true },
    simulation := { honeypotRisk := "✅ NO HONEYPOT INDICATORS - Simulations passed" },
    activity := { hasHealthyActivity := true,
                  devActivity := "✅ No suspicious dev activity", uniqueBuyers24h := 10 },
    security := { hasDangerousFeatures := false, securityScore := 10 },
    contractAnalysis := { complexityScore := 1/2, canMint := false } }

/-! # Helper lemmas -/

theorem jsRound_mono {q r : ℚ} (h : q ≤ r) : jsRound q ≤ jsRound r :=
  Int.floor_le_floor (by linarith)

theorem jsRound_nonneg {q : ℚ} (h : 0 ≤ q) : 0 ≤ jsRound q := by
  rw [jsRound]
  exact Int.le_floor.mpr (by push_cast; linarith)

theorem calc_riskPercentage_eq (a : AnalysisIn) :
    (calculateComprehensiveRisk a).riskPercentage = riskPercentage a := rfl

theorem calc_level_eq (a : AnalysisIn) :
    (calculateComprehensiveRisk a).level =
      riskLevel (calculateComprehensiveRisk a).riskPercentage := rfl

theorem ownershipBand_bounds (r : String) :
    0 ≤ ownershipBand r ∧ ownershipBand r ≤ 15 := by
  rw [ownershipBand]; split_ifs <;> norm_num

theorem taxPenalty_bounds (t : TaxesIn) : 0 ≤ taxPenalty t ∧ taxPenalty t ≤ 20 := by
  rw [taxPenalty]; split_ifs <;> norm_num

theorem limitsPenalty_bounds (t : TaxesIn) : 0 ≤ limitsPenalty t ∧ limitsPenalty t ≤ 8 := by
  rw [limitsPenalty]; split_ifs <;> norm_num

theorem liquidityPenalty_bounds (l : LiquidityIn) :
    0 ≤ liquidityPenalty l ∧ liquidityPenalty l ≤ 20 := by
  rw [liquidityPenalty]; split_ifs <;> norm_num

theorem concentrationPenalty_bounds (h : HolderIn) :
    0 ≤ concentrationPenalty h ∧ concentrationPenalty h ≤ 15 := by
  rw [concentrationPenalty]; split_ifs <;> norm_num

theorem honeypotBand_bounds (s : String) : 0 ≤ honeypotBand s ∧ honeypotBand s ≤ 15 := by
  rw [honeypotBand]; split_ifs <;> norm_num

theorem securityPenalty_bounds (s : SecurityIn) :
    0 ≤ securityPenalty s ∧ securityPenalty s ≤ 10 := by
  rw [securityPenalty]; split_ifs <;> norm_num

theorem devBand_bounds (d : String) : 0 ≤ devBand d ∧ devBand d ≤ 2 := by
  rw [devBand]; split_ifs <;> norm_num

theorem activityPenalty_bounds (a : ActivityIn) :
    0 ≤ activityPenalty a ∧ activityPenalty a ≤ 5 := by
  obtain ⟨h1, h2⟩ := devBand_bounds a.devActivity
  rw [activityPenalty]; split_ifs <;> constructor <;> linarith

theorem contractPenalty_bounds (c : ContractIn) :
    0 ≤ contractPenalty c ∧ contractPenalty c ≤ 5 := by
  rw [contractPenalty]; split_ifs <;> norm_num

theorem riskScore_bounds (a : AnalysisIn) : 0 ≤ riskScore a ∧ riskScore a ≤ 113 := by
  obtain ⟨o1, o2⟩ := ownershipBand_bounds a.ownership.ownershipRisk
  obtain ⟨t1, t2⟩ := taxPenalty_bounds a.taxes
  obtain ⟨l1, l2⟩ := limitsPenalty_bounds a.taxes
  obtain ⟨q1, q2⟩ := liquidityPenalty_bounds a.liquidity
  obtain ⟨c1, c2⟩ := concentrationPenalty_bounds a.holderAnalysis
  obtain ⟨h1, h2⟩ := honeypotBand_bounds a.simulation.honeypotRisk
  obtain ⟨s1, s2⟩ := securityPenalty_bounds a.security
  obtain ⟨v1, v2⟩ := activityPenalty_bounds a.activity
  obtain ⟨b1, b2⟩ := contractPenalty_bounds a.contractAnalysis
  rw [riskScore, ownershipPenalty, honeypotPenalty]
  constructor <;> linarith

theorem riskPercentage_mono {a b : AnalysisIn}
    (h1 : ownershipPenalty a.ownership ≤ ownershipPenalty b.ownership)
    (h2 : taxPenalty a.taxes ≤ taxPenalty b.taxes)
    (h3 : limitsPenalty a.taxes ≤ limitsPenalty b.taxes)
    (h4 : liquidityPenalty a.liquidity ≤ liquidityPenalty b.liquidity)
    (h5 : concentrationPenalty a.holderAnalysis ≤ concentrationPenalty b.holderAnalysis)
    (h6 : honeypotPenalty a.simulation ≤ honeypotPenalty b.simulation)
    (h7 : securityPenalty a.security ≤ securityPenalty b.security)
    (h8 : activityPenalty a.activity ≤ activityPenalty b.activity)
    (h9 : contractPenalty a.contractAnalysis ≤ contractPenalty b.contractAnalysis) :
    (calculateComprehensiveRisk a).riskPercentage ≤
      (calculateComprehensiveRisk b).riskPercentage := by
  rw [calc_riskPercentage_eq, calc_riskPercentage_eq, riskPercentage, riskPercentage]
  apply jsRound_mono
  have hs : riskScore a ≤ riskScore b := by
    rw [riskScore, riskScore]; linarith
  have hq : (riskScore a : ℚ) ≤ (riskScore b : ℚ) := by exact_mod_cast hs
  have hm : (0:ℚ) < (maxScore : ℚ) := by rw [maxScore]; norm_num
  exact mul_le_mul_of_nonneg_right ((div_le_div_iff_of_pos_right hm).mpr hq) (by norm_num)

theorem jsRound_113 : jsRound ((113 : ℚ) / (maxScore : ℚ) * 100) = 98 := by
  rw [jsRound, maxScore]
  norm_num

theorem jsRound_20 : jsRound ((20 : ℚ) / (maxScore : ℚ) * 100) = 17 := by
  rw [jsRound, maxScore]
  norm_num

theorem riskLevel_cases (p : ℤ) :
    riskLevel p = "LOW RISK" ∨ riskLevel p = "MEDIUM RISK" ∨ riskLevel p = "HIGH RISK" := by
  rw [riskLevel]
  split_ifs <;> simp

/-! # Claims -/

/-- C9.  For every aggregator input, the computed risk percentage lies in
[0, 100] and the emitted risk level is one of LOW RISK, MEDIUM RISK,
HIGH RISK: the raw score is a sum of fixed non-negative penalties whose
total maximum 113 never exceeds the normalization maximum 115, so the
rounded percentage can never exceed 100 (it is at most 98) nor fall
below 0. -/
theorem c9_risk_percentage_bounds (a : AnalysisIn) :
    0 ≤ (calculateComprehensiveRisk a).riskPercentage ∧
    (calculateComprehensiveRisk a).riskPercentage ≤ 100 ∧
    0 ≤ (calculateComprehensiveRisk a).score ∧
    (calculateComprehensiveRisk a).score ≤ 113 ∧ (113 : ℤ) ≤ maxScore ∧
    ((calculateComprehensiveRisk a).level = "LOW RISK" ∨
      (calculateComprehensiveRisk a).level = "MEDIUM RISK" ∨
      (calculateComprehensiveRisk a).level = "HIGH RISK") := by
  obtain ⟨hs0, hs113⟩ := riskScore_bounds a
  have hscore : (calculateComprehensiveRisk a).score = riskScore a := rfl
  have hm : (0:ℚ) < (maxScore : ℚ) := by rw [maxScore]; norm_num
  refine ⟨?_, ?_, ?_, ?_, ?_, ?_⟩
  · rw [calc_riskPercentage_eq, riskPercentage]
    apply jsRound_nonneg
    have : (0:ℚ) ≤ (riskScore a : ℚ) := by exact_mod_cast hs0
    positivity
  · rw [calc_riskPercentage_eq, riskPercentage]
    have hq : (riskScore a : ℚ) ≤ 113 := by exact_mod_cast hs113
    have h1 : jsRound ((riskScore a : ℚ) / (maxScore : ℚ) * 100) ≤
        jsRound ((113 : ℚ) / (maxScore : ℚ) * 100) := by
      apply jsRound_mono
      exact mul_le_mul_of_nonneg_right ((div_le_div_iff_of_pos_right hm).mpr hq) (by norm_num)
    rw [jsRound_113] at h1
    omega
  · rw [hscore]; exact hs0
  · rw [hscore]; exact hs113
  · rw [maxScore]; norm_num
  · rw [calc_level_eq]
    exact riskLevel_cases _

/-- C1 counterexample.  An input in which no liquidity pair was found but
every other signal is benign: the aggregator emits LOW RISK, not
HIGH RISK — there is no CRITICAL-liquidity override of the tier in
`calculateComprehensiveRisk`. -/
theorem c1_counterexample :
    benignNoLpInput.liquidity.hasLiquidity = false ∧
    (calculateComprehensiveRisk benignNoLpInput).level = "LOW RISK" ∧
    (calculateComprehensiveRisk benignNoLpInput).riskPercentage = 17 := by
  have hs : riskScore benignNoLpInput = 20 := by
    norm_num [riskScore, ownershipPenalty, ownershipBand, taxPenalty, limitsPenalty,
      liquidityPenalty, concentrationPenalty, honeypotPenalty, honeypotBand, securityPenalty,
      activityPenalty, devBand, contractPenalty, benignNoLpInput,
      show ("None (Renounced)" : String) ≠ "High" from by decide,
      show ("None (Renounced)" : String) ≠ "Medium" from by decide,
      show strContains "✅ NO HONEYPOT INDICATORS - Simulations passed" "HIGH" = false from by
        decide,
      show strContains "✅ NO HONEYPOT INDICATORS - Simulations passed" "POTENTIAL" = false from by
        decide,
      show strContains "✅ No suspicious dev activity" "🚨" = false from by decide]
  have hpct : (calculateComprehensiveRisk benignNoLpInput).riskPercentage = 17 := by
    rw [calc_riskPercentage_eq, riskPercentage, hs]
    exact_mod_cast jsRound_20
  refine ⟨rfl, ?_, hpct⟩
  rw [calc_level_eq, hpct, riskLevel]
  norm_num

/-- C1 (amended).  When no liquidity pair is found the aggregator adds
the maximum liquidity penalty (20 points), but the overall tier is
computed solely from the normalized risk percentage (at least 60 HIGH,
at least 35 MEDIUM, else LOW); no liquidity-tier override to HIGH RISK
exists, so a no-liquidity input is HIGH RISK only when its percentage
reaches 60. -/
theorem c1_no_liquidity_scores_twenty_tier_from_percentage (a : AnalysisIn)
    (h : a.liquidity.hasLiquidity = false) :
    liquidityPenalty a.liquidity = 20 ∧
    (calculateComprehensiveRisk a).level =
      riskLevel (calculateComprehensiveRisk a).riskPercentage ∧
    ((calculateComprehensiveRisk a).level = "HIGH RISK" ↔
      60 ≤ (calculateComprehensiveRisk a).riskPercentage) := by
  refine ⟨?_, rfl, ?_⟩
  · rw [liquidityPenalty, h]
    norm_num
  · rw [calc_level_eq, riskLevel]
    split_ifs with h60 h35
    · simp [h60]
    · constructor
      · intro hcontra
        exact absurd hcontra (by decide)
      · intro hge
        exact absurd hge h60
    · constructor
      · intro hcontra
        exact absurd hcontra (by decide)
      · intro hge
        exact absurd hge h60

/-- C1 witness: the amended claim instantiated at the concrete
no-liquidity input of the counterexample. -/
theorem c1_witness :
    liquidityPenalty benignNoLpInput.liquidity = 20 ∧
    (calculateComprehensiveRisk benignNoLpInput).level =
      riskLevel (calculateComprehensiveRisk benignNoLpInput).riskPercentage ∧
    ((calculateComprehensiveRisk benignNoLpInput).level = "HIGH RISK" ↔
      60 ≤ (calculateComprehensiveRisk benignNoLpInput).riskPercentage) :=
  c1_no_liquidity_scores_twenty_tier_from_percentage benignNoLpInput rfl

/-- C6.  The RiskAssessment is a pure function of the fetcher outputs:
replacing the `lpAgeDays` field — the only aggregator input derived from
`Math.random()` — by any other value leaves the entire RiskAssessment
(score, percentage, tier, factors, insights) unchanged, so two runs over
identical fetcher outputs produce identical assessments. -/
theorem c6_risk_assessment_ignores_random_lp_age (a : AnalysisIn) (d : ℕ) :
    calculateComprehensiveRisk
        { a with liquidity := { a.liquidity with lpAgeDays := d } } =
      calculateComprehensiveRisk a := by
  obtain ⟨t, l, ho, o, si, ac, se, co⟩ := a
  obtain ⟨hl, bp, ad⟩ := l
  rfl

/-- C4 counterexample.  "insufficient balance" matches the spec's
benign-pattern list (insufficient balance/allowance, deadline expired,
low liquidity), yet a buy-probe revert with exactly that reason is
classified as a critical failure, because the router-swap safe-error
list contains "insufficient eth amount" but not "insufficient balance";
likewise a transfer-probe revert reading "deadline expired" is critical,
because the transfer handler only recognises balance-related reasons. -/
theorem c4_counterexample :
    specBenignMatch "insufficient balance" = true ∧
    classifyProbeRevert Probe.buy "insufficient balance" = SimResult.critical ∧
    specBenignMatch "deadline expired" = true ∧
    classifyProbeRevert Probe.transfer "deadline expired" = SimResult.critical := by
  refine ⟨by decide, by decide, by decide, by decide⟩

/-- C4 (amended).  Each probe handler has its own benign list: the
router buy/sell handler recognises exactly "insufficient eth amount",
"insufficient liquidity", "transfer amount exceeds balance",
"insufficient allowance" and "expired"; the transfer handler recognises
"insufficient balance" and "transfer amount exceeds".  A revert reason
containing (case-insensitively) one of the handler's own patterns is
always classified as an expected failure, never as a critical one. -/
theorem c4_safe_revert_classified_expected (p : Probe) (reason e : String)
    (he : e ∈ probeSafeList p) (hc : strContains (lowerStr reason) e = true) :
    classifyProbeRevert p reason = SimResult.expected ∧
    classifyProbeRevert p reason ≠ SimResult.critical := by
  have hexp : classifyProbeRevert p reason = SimResult.expected := by
    cases p with
    | transfer =>
      have : e = "insufficient balance" ∨ e = "transfer amount exceeds" := by
        simpa [probeSafeList, transferSafePatterns] using he
      rcases this with h | h <;>
        · subst h
          simp [classifyProbeRevert, classifyTransferRevert, hc]
    | buy =>
      have hany : swapSafeErrors.any (fun x => strContains (lowerStr reason) x) = true :=
        List.any_eq_true.mpr ⟨e, by simpa [probeSafeList] using he, hc⟩
      simp [classifyProbeRevert, classifyRouterSwapRevert, hany]
    | sell =>
      have hany : swapSafeErrors.any (fun x => strContains (lowerStr reason) x) = true :=
        List.any_eq_true.mpr ⟨e, by simpa [probeSafeList] using he, hc⟩
      simp [classifyProbeRevert, classifyRouterSwapRevert, hany]
  exact ⟨hexp, by rw [hexp]; decide⟩

/-- C4 witness: a sell-probe revert reading "UniswapV2Router: EXPIRED"
contains the handler pattern "expired" case-insensitively and is
classified as expected. -/
theorem c4_witness :
    classifyProbeRevert Probe.sell "UniswapV2Router: EXPIRED" = SimResult.expected ∧
    classifyProbeRevert Probe.sell "UniswapV2Router: EXPIRED" ≠ SimResult.critical :=
  c4_safe_revert_classified_expected Probe.sell "UniswapV2Router: EXPIRED" "expired"
    (by decide) (by decide)

/-- C2 counterexample.  A lock whose `unlocked` flag is false but whose
recorded unlock timestamp (0) is already in the past at any evaluation
time (for instance 1000) still contributes its full amount to locked%:
`checkLockerStatus` never consults the unlock timestamp when summing
locked amounts, so the expired lock yields 50% locked instead of the 0%
the claim requires. -/
theorem c2_counterexample :
    (Lock.mk 50 0 "0xLP" false).unlocked = false ∧
    (Lock.mk 50 0 "0xLP" false).unlockTime < 1000 ∧
    (checkLockerStatus "0xlp" [Lock.mk 50 0 "0xLP" false] 100).lockedPercent = 50 ∧
    (checkLockerStatus "0xlp" [Lock.mk 50 0 "0xLP" false] 100).locked = true := by
  have hc : isCountedLock "0xlp" (Lock.mk 50 0 "0xLP" false) = true := by decide
  refine ⟨rfl, by norm_num, ?_, ?_⟩ <;>
    norm_num [checkLockerStatus, countedLocks, List.filter, hc]

/-- C2 (amended).  A lock contributes to locked% iff its `unlocked` flag
is false and its token equals the LP pair case-insensitively; the unlock
timestamp is never consulted for the contribution (it only feeds the
reported earliest unlock date), so expired-but-not-withdrawn locks still
count.  Part one: removing a lock with `unlocked = true` changes nothing.
Part two: rewriting every lock's unlock timestamp arbitrarily leaves
locked flag, locked amount, locked percent and lock count unchanged. -/
theorem c2_lock_contribution_ignores_timestamp (lp : String) (supply : ℕ)
    (locks : List Lock) :
    (∀ (l : Lock) (ls₁ ls₂ : List Lock), locks = ls₁ ++ l :: ls₂ → l.unlocked = true →
      checkLockerStatus lp locks supply = checkLockerStatus lp (ls₁ ++ ls₂) supply) ∧
    (∀ f : Lock → ℕ,
      ((checkLockerStatus lp (locks.map fun l => { l with unlockTime := f l }) supply).locked
          = (checkLockerStatus lp locks supply).locked ∧
        (checkLockerStatus lp (locks.map fun l => { l with unlockTime := f l }) supply).lockedAmount
          = (checkLockerStatus lp locks supply).lockedAmount) ∧
      (checkLockerStatus lp (locks.map fun l => { l with unlockTime := f l }) supply).lockedPercent
          = (checkLockerStatus lp locks supply).lockedPercent ∧
      (checkLockerStatus lp (locks.map fun l => { l with unlockTime := f l }) supply).lockCount
          = (checkLockerStatus lp locks supply).lockCount) := by
  constructor
  · intro l ls₁ ls₂ hsplit hunl
    subst hsplit
    have hpred : isCountedLock lp l = false := by
      rw [isCountedLock, hunl]
      rfl
    have hcl : countedLocks lp (ls₁ ++ l :: ls₂) = countedLocks lp (ls₁ ++ ls₂) := by
      simp [countedLocks, List.filter_append, List.filter_cons, hpred]
    simp only [checkLockerStatus, hcl]
  · intro f
    have hcomp : (fun l => isCountedLock lp { l with unlockTime := f l }) =
        fun l => isCountedLock lp l := by
      funext l
      rfl
    have hcl : countedLocks lp (locks.map fun l => { l with unlockTime := f l }) =
        (countedLocks lp locks).map fun l => { l with unlockTime := f l } := by
      rw [countedLocks, countedLocks, List.filter_map]
      congr 1
    have hamt : (Lock.amount ∘ fun l => ({ l with unlockTime := f l } : Lock)) = Lock.amount := by
      funext l
      rfl
    have hie : ((countedLocks lp locks).map fun l => ({ l with unlockTime := f l } : Lock)).isEmpty
        = (countedLocks lp locks).isEmpty := by
      cases countedLocks lp locks <;> rfl
    simp only [checkLockerStatus, hcl, List.map_map, hamt, hie, List.length_map]
    split_ifs <;> simp

/-- C2 witness: the amended claim instantiated on a two-lock list — the
first lock already withdrawn (`unlocked = true`), and a retiming that
sets every timestamp to 99. -/
theorem c2_witness :
    checkLockerStatus "0xlp" [Lock.mk 10 5 "0xlp" true, Lock.mk 40 7 "0xlp" false] 100 =
      checkLockerStatus "0xlp" [Lock.mk 40 7 "0xlp" false] 100 ∧
    (checkLockerStatus "0xlp"
        ([Lock.mk 10 5 "0xlp" true, Lock.mk 40 7 "0xlp" false].map
          fun l => { l with unlockTime := 99 }) 100).lockedPercent =
      (checkLockerStatus "0xlp" [Lock.mk 10 5 "0xlp" true, Lock.mk 40 7 "0xlp" false]
        100).lockedPercent :=
  ⟨(c2_lock_contribution_ignores_timestamp "0xlp" 100
      [Lock.mk 10 5 "0xlp" true, Lock.mk 40 7 "0xlp" false]).1
        (Lock.mk 10 5 "0xlp" true) [] [Lock.mk 40 7 "0xlp" false] rfl rfl,
    ((c2_lock_contribution_ignores_timestamp "0xlp" 100
      [Lock.mk 10 5 "0xlp" true, Lock.mk 40 7 "0xlp" false]).2 (fun _ => 99)).2.1⟩

/-- C8.  A holder distribution is classified healthy exactly when the
top-10 live-holder concentration is strictly below 40%, the live holder
count strictly exceeds 50, and the (unrounded) Gini coefficient computed
over the live holders is strictly below 0.7. -/
theorem c8_healthy_iff (tokenAddress : String) (allHolders : List HolderRec) :
    (analyzeHolderDistribution tokenAddress allHolders).healthyDistribution = true ↔
      ((((liveHolders tokenAddress allHolders).take 10).map HolderRec.percent).sum < 40 ∧
        50 < (liveHolders tokenAddress allHolders).length ∧
        calculateGiniCoefficient (liveHolders tokenAddress allHolders) < 7/10) := by
  simp [analyzeHolderDistribution]

/-- C10.  The live-holder filter drops any record whose address equals
the analyzed token's own address case-insensitively, so such a record
contributes nothing to the distribution analysis: inserting it anywhere
in the fetched list leaves the whole result (top-10 concentration, Gini
coefficient, live holder count, classification, display list)
unchanged. -/
theorem c10_token_address_excluded (tokenAddress : String) (l₁ l₂ : List HolderRec)
    (r : HolderRec) (h : lowerStr r.address = lowerStr tokenAddress) :
    analyzeHolderDistribution tokenAddress (l₁ ++ r :: l₂) =
      analyzeHolderDistribution tokenAddress (l₁ ++ l₂) := by
  have hr : isLiveHolder tokenAddress r = false := by
    rw [isLiveHolder, h]
    simp
  have hlive : liveHolders tokenAddress (l₁ ++ r :: l₂) = liveHolders tokenAddress (l₁ ++ l₂) := by
    simp [liveHolders, List.filter_append, List.filter_cons, hr]
  simp only [analyzeHolderDistribution, hlive]

/-- C10 witness: a holder record carrying the token's own address in a
different letter case is dropped from the statistics. -/
theorem c10_witness :
    analyzeHolderDistribution "0xToken"
        [HolderRec.mk "0xa" 1 1, HolderRec.mk "0xTOKEN" 5 5] =
      analyzeHolderDistribution "0xToken" [HolderRec.mk "0xa" 1 1] :=
  c10_token_address_excluded "0xToken" [HolderRec.mk "0xa" 1 1] []
    (HolderRec.mk "0xTOKEN" 5 5) (by decide)

theorem holderPercent_eq {balance supply : ℕ} (hs : 0 < supply) :
    holderPercent balance supply = ((balance * 10000 / supply : ℕ) : ℚ) / 100 :=
  if_pos hs

theorem holderPercent_le {balance supply : ℕ} (hs : 0 < supply) :
    holderPercent balance supply ≤ 100 * (balance : ℚ) / (supply : ℚ) := by
  rw [holderPercent_eq hs]
  have hsq : (0:ℚ) < (supply : ℚ) := by exact_mod_cast hs
  rw [div_le_div_iff₀ (by norm_num) hsq]
  have hnat : (balance * 10000 / supply) * supply ≤ balance * 10000 :=
    Nat.div_mul_le_self _ _
  have hq : ((balance * 10000 / supply : ℕ) : ℚ) * (supply : ℚ) ≤ (balance : ℚ) * 10000 := by
    exact_mod_cast hnat
  nlinarith

theorem holderPercent_gt {balance supply : ℕ} (hs : 0 < supply) :
    100 * (balance : ℚ) / (supply : ℚ) - 1/100 < holderPercent balance supply := by
  rw [holderPercent_eq hs]
  have hsq : (0:ℚ) < (supply : ℚ) := by exact_mod_cast hs
  have hnat : balance * 10000 < (balance * 10000 / supply + 1) * supply := by
    have h1 := Nat.div_add_mod (balance * 10000) supply
    have h2 := Nat.mod_lt (balance * 10000) hs
    nlinarith
  have hq : (balance : ℚ) * 10000 < (((balance * 10000 / supply : ℕ) : ℚ) + 1) * (supply : ℚ) := by
    exact_mod_cast hnat
  rw [sub_lt_iff_lt_add, div_add_div_same, div_lt_div_iff₀ hsq (by norm_num)]
  nlinarith

/-- C3.  For supply > 0, every holder entry produced by `getTopHolders`
carries the percentage `(balance * 10000 / supply) / 100`, where the
inner division is exact integer (BigInt) division of the raw balance
scaled by 10000 by the raw supply; consequently the computed percent is
the true percentage truncated to two decimals — within 1/100 below it
and never above it — with no floating-point drift. -/
theorem c3_holder_percent_exact (items : List RawHolder) (limit supply : ℕ)
    (h : HolderEntry) (hs : 0 < supply) (hmem : h ∈ getTopHolders items limit supply) :
    h.percent = ((h.balance * 10000 / supply : ℕ) : ℚ) / 100 ∧
    100 * (h.balance : ℚ) / (supply : ℚ) - 1/100 < h.percent ∧
    h.percent ≤ 100 * (h.balance : ℚ) / (supply : ℚ) := by
  have hmem2 := List.mem_of_mem_filter (List.mem_of_mem_take hmem)
  obtain ⟨raw, _, heq⟩ := List.mem_map.mp hmem2
  have hb : h.balance = raw.value := by rw [← heq]
  have hp : h.percent = holderPercent raw.value supply := by rw [← heq]
  rw [hp, hb]
  exact ⟨holderPercent_eq hs, holderPercent_gt hs, holderPercent_le hs⟩

/-- C3 witness: a holder with raw balance 50 of raw supply 200 is
reported at exactly 25.00%. -/
theorem c3_witness :
    (0:ℕ) < 200 ∧
    ((HolderEntry.mk "0xa" 50 25).percent = ((50 * 10000 / 200 : ℕ) : ℚ) / 100 ∧
      100 * ((HolderEntry.mk "0xa" 50 25).balance : ℚ) / (200 : ℚ) - 1/100 <
        (HolderEntry.mk "0xa" 50 25).percent ∧
      (HolderEntry.mk "0xa" 50 25).percent ≤
        100 * ((HolderEntry.mk "0xa" 50 25).balance : ℚ) / (200 : ℚ)) :=
  ⟨by norm_num,
    c3_holder_percent_exact [RawHolder.mk "0xa" 50] 10 200 (HolderEntry.mk "0xa" 50 25)
      (by norm_num)
      (by norm_num [getTopHolders, holderPercent, List.filter])⟩

theorem band2_mono {c1 c2 c1' c2' : Prop} [Decidable c1] [Decidable c2]
    [Decidable c1'] [Decidable c2'] {p q r : ℤ}
    (i1 : c1 → c1') (i2 : c2 → c2') (hqp : q ≤ p) (hrq : r ≤ q) :
    (if c1 then p else if c2 then q else r) ≤ (if c1' then p else if c2' then q else r) := by
  by_cases h1 : c1
  · rw [if_pos h1, if_pos (i1 h1)]
  · rw [if_neg h1]
    by_cases h1' : c1'
    · rw [if_pos h1']
      by_cases h2 : c2
      · rw [if_pos h2]; exact hqp
      · rw [if_neg h2]; exact hrq.trans hqp
    · rw [if_neg h1']
      by_cases h2 : c2
      · rw [if_pos h2, if_pos (i2 h2)]
      · rw [if_neg h2]
        by_cases h2' : c2'
        · rw [if_pos h2']; exact hrq
        · rw [if_neg h2']

theorem band3_mono {c1 c2 c3 c1' c2' c3' : Prop} [Decidable c1] [Decidable c2]
    [Decidable c3] [Decidable c1'] [Decidable c2'] [Decidable c3'] {p q r s : ℤ}
    (i1 : c1 → c1') (i2 : c2 → c2') (i3 : c3 → c3')
    (hqp : q ≤ p) (hrq : r ≤ q) (hsr : s ≤ r) :
    (if c1 then p else if c2 then q else if c3 then r else s) ≤
      (if c1' then p else if c2' then q else if c3' then r else s) := by
  by_cases h1 : c1
  · rw [if_pos h1, if_pos (i1 h1)]
  · rw [if_neg h1]
    by_cases h1' : c1'
    · rw [if_pos h1']
      by_cases h2 : c2
      · rw [if_pos h2]; exact hqp
      · rw [if_neg h2]
        by_cases h3 : c3
        · rw [if_pos h3]; exact hrq.trans hqp
        · rw [if_neg h3]; exact (hsr.trans hrq).trans hqp
    · rw [if_neg h1']
      by_cases h2 : c2
      · rw [if_pos h2, if_pos (i2 h2)]
      · rw [if_neg h2]
        by_cases h2' : c2'
        · rw [if_pos h2']
          by_cases h3 : c3
          · rw [if_pos h3]; exact hrq
          · rw [if_neg h3]; exact hsr.trans hrq
        · rw [if_neg h2']
          by_cases h3 : c3
          · rw [if_pos h3, if_pos (i3 h3)]
          · rw [if_neg h3]
            by_cases h3' : c3'
            · rw [if_pos h3']; exact hsr
            · rw [if_neg h3']

theorem taxPenalty_mono_buy {t t' s : ℚ} {hl : Bool} (h : t ≤ t') :
    taxPenalty ⟨t, s, hl⟩ ≤ taxPenalty ⟨t', s, hl⟩ := by
  rw [taxPenalty, taxPenalty]
  exact band2_mono (Or.imp (fun hh => lt_of_lt_of_le hh h) id)
    (Or.imp (fun hh => lt_of_lt_of_le hh h) id) (by norm_num) (by norm_num)

theorem taxPenalty_mono_sell {t s s' : ℚ} {hl : Bool} (h : s ≤ s') :
    taxPenalty ⟨t, s, hl⟩ ≤ taxPenalty ⟨t, s', hl⟩ := by
  rw [taxPenalty, taxPenalty]
  exact band2_mono (Or.imp id (fun hh => lt_of_lt_of_le hh h))
    (Or.imp id (fun hh => lt_of_lt_of_le hh h)) (by norm_num) (by norm_num)

theorem limitsPenalty_true_le_false {t s : ℚ} :
    limitsPenalty ⟨t, s, true⟩ ≤ limitsPenalty ⟨t, s, false⟩ := by
  rw [limitsPenalty, limitsPenalty]
  norm_num

theorem liquidityPenalty_true_le_false {b : ℚ} {d : ℕ} :
    liquidityPenalty ⟨true, b, d⟩ ≤ liquidityPenalty ⟨false, b, d⟩ := by
  have h1 := (liquidityPenalty_bounds ⟨true, b, d⟩).2
  have h2 : liquidityPenalty ⟨false, b, d⟩ = 20 := by
    rw [liquidityPenalty]
    norm_num
  rw [h2]
  exact h1

theorem liquidityPenalty_anti_burn {b b' : ℚ} {hl : Bool} {d : ℕ} (h : b ≤ b') :
    liquidityPenalty ⟨hl, b', d⟩ ≤ liquidityPenalty ⟨hl, b, d⟩ := by
  rw [liquidityPenalty, liquidityPenalty]
  exact band3_mono id (fun hh => lt_of_le_of_lt h hh) (fun hh => lt_of_le_of_lt h hh)
    (by norm_num) (by norm_num) (by norm_num)

theorem concentrationPenalty_mono {c c' : ℚ} {hd : Bool} (h : c ≤ c') :
    concentrationPenalty ⟨c, hd⟩ ≤ concentrationPenalty ⟨c', hd⟩ := by
  rw [concentrationPenalty, concentrationPenalty]
  exact band2_mono (fun hh => lt_of_lt_of_le hh h) (fun hh => lt_of_lt_of_le hh h)
    (by norm_num) (by norm_num)

theorem securityPenalty_false_le_true {s : ℤ} :
    securityPenalty ⟨false, s⟩ ≤ securityPenalty ⟨true, s⟩ := by
  rw [securityPenalty, securityPenalty]
  dsimp only
  rw [if_neg (by decide : ¬(false = true)), if_pos rfl]
  exact add_le_add_right (by norm_num) _

theorem securityPenalty_anti_score {d : Bool} {s s' : ℤ} (h : s ≤ s') :
    securityPenalty ⟨d, s'⟩ ≤ securityPenalty ⟨d, s⟩ := by
  rw [securityPenalty, securityPenalty]
  dsimp only
  have hx : (if s' < 5 then (2:ℤ) else 0) ≤ (if s < 5 then 2 else 0) := by
    split_ifs with hh1 hh2
    · exact le_refl _
    · linarith
    · norm_num
    · exact le_refl _
  exact add_le_add_left hx _

theorem activityPenalty_true_le_false {d : String} {u : ℕ} :
    activityPenalty ⟨true, d, u⟩ ≤ activityPenalty ⟨false, d, u⟩ := by
  rw [activityPenalty, activityPenalty]
  dsimp only
  norm_num

theorem activityPenalty_mono_dev {hh : Bool} {d d' : String} {u : ℕ}
    (h : devBand d ≤ devBand d') :
    activityPenalty ⟨hh, d, u⟩ ≤ activityPenalty ⟨hh, d', u⟩ := by
  rw [activityPenalty, activityPenalty]
  exact add_le_add_left h _

theorem contractPenalty_mono_complexity {x x' : ℚ} {m : Bool} (h : x ≤ x') :
    contractPenalty ⟨x, m⟩ ≤ contractPenalty ⟨x', m⟩ := by
  rw [contractPenalty, contractPenalty]
  dsimp only
  have hx : (if 7 < x then (3:ℤ) else 0) ≤ (if 7 < x' then 3 else 0) := by
    split_ifs with hh1 hh2
    · exact le_refl _
    · exact absurd (lt_of_lt_of_le hh1 h) hh2
    · norm_num
    · exact le_refl _
  exact add_le_add_right hx _

theorem contractPenalty_false_le_true {x : ℚ} :
    contractPenalty ⟨x, false⟩ ≤ contractPenalty ⟨x, true⟩ := by
  rw [contractPenalty, contractPenalty]
  dsimp only
  rw [if_neg (by decide : ¬(false = true)), if_pos rfl]
  exact add_le_add_left (by norm_num) _

/-- C5.  The risk percentage is monotonic non-decreasing in every
individual penalty-triggering condition, holding all other fields
fixed: raising either tax, lowering the burn percentage, losing the
liquidity pair, raising the top-10 concentration, entering a more severe
ownership / honeypot / dev-activity band, losing reasonable limits or
healthy activity, gaining dangerous features or mint capability,
lowering the security score, or raising the complexity score can only
keep or raise the risk percentage. -/
theorem c5_risk_percentage_monotone :
    (∀ (a : AnalysisIn) (r r' : String), ownershipBand r ≤ ownershipBand r' →
      (calculateComprehensiveRisk
          { a with ownership := { a.ownership with ownershipRisk := r } }).riskPercentage ≤
        (calculateComprehensiveRisk
          { a with ownership := { a.ownership with ownershipRisk := r' } }).riskPercentage) ∧
    (∀ (a : AnalysisIn) (t t' : ℚ), t ≤ t' →
      (calculateComprehensiveRisk
          { a with taxes := { a.taxes with buyTax := t } }).riskPercentage ≤
        (calculateComprehensiveRisk
          { a with taxes := { a.taxes with buyTax := t' } }).riskPercentage) ∧
    (∀ (a : AnalysisIn) (t t' : ℚ), t ≤ t' →
      (calculateComprehensiveRisk
          { a with taxes := { a.taxes with sellTax := t } }).riskPercentage ≤
        (calculateComprehensiveRisk
          { a with taxes := { a.taxes with sellTax := t' } }).riskPercentage) ∧
    (∀ (a : AnalysisIn),
      (calculateComprehensiveRisk
          { a with taxes := { a.taxes with hasHighLimits := true } }).riskPercentage ≤
        (calculateComprehensiveRisk
          { a with taxes := { a.taxes with hasHighLimits := false } }).riskPercentage) ∧
    (∀ (a : AnalysisIn),
      (calculateComprehensiveRisk
          { a with liquidity := { a.liquidity with hasLiquidity := true } }).riskPercentage ≤
        (calculateComprehensiveRisk
          { a with liquidity := { a.liquidity with hasLiquidity := false } }).riskPercentage) ∧
    (∀ (a : AnalysisIn) (b b' : ℚ), b ≤ b' →
      (calculateComprehensiveRisk
          { a with liquidity := { a.liquidity with lpPercentBurned := b' } }).riskPercentage ≤
        (calculateComprehensiveRisk
          { a with liquidity := { a.liquidity with lpPercentBurned := b } }).riskPercentage) ∧
    (∀ (a : AnalysisIn) (c c' : ℚ), c ≤ c' →
      (calculateComprehensiveRisk
          { a with holderAnalysis :=
              { a.holderAnalysis with top10Concentration := c } }).riskPercentage ≤
        (calculateComprehensiveRisk
          { a with holderAnalysis :=
              { a.holderAnalysis with top10Concentration := c' } }).riskPercentage) ∧
    (∀ (a : AnalysisIn) (s s' : String), honeypotBand s ≤ honeypotBand s' →
      (calculateComprehensiveRisk
          { a with simulation := { a.simulation with honeypotRisk := s } }).riskPercentage ≤
        (calculateComprehensiveRisk
          { a with simulation := { a.simulation with honeypotRisk := s' } }).riskPercentage) ∧
    (∀ (a : AnalysisIn),
      (calculateComprehensiveRisk
          { a with security :=
              { a.security with hasDangerousFeatures := false } }).riskPercentage ≤
        (calculateComprehensiveRisk
          { a with security :=
              { a.security with hasDangerousFeatures := true } }).riskPercentage) ∧
    (∀ (a : AnalysisIn) (s s' : ℤ), s ≤ s' →
      (calculateComprehensiveRisk
          { a with security := { a.security with securityScore := s' } }).riskPercentage ≤
        (calculateComprehensiveRisk
          { a with security := { a.security with securityScore := s } }).riskPercentage) ∧
    (∀ (a : AnalysisIn),
      (calculateComprehensiveRisk
          { a with activity := { a.activity with hasHealthyActivity := true } }).riskPercentage ≤
        (calculateComprehensiveRisk
          { a with activity :=
              { a.activity with hasHealthyActivity := false } }).riskPercentage) ∧
    (∀ (a : AnalysisIn) (d d' : String), devBand d ≤ devBand d' →
      (calculateComprehensiveRisk
          { a with activity := { a.activity with devActivity := d } }).riskPercentage ≤
        (calculateComprehensiveRisk
          { a with activity := { a.activity with devActivity := d' } }).riskPercentage) ∧
    (∀ (a : AnalysisIn) (x x' : ℚ), x ≤ x' →
      (calculateComprehensiveRisk
          { a with contractAnalysis :=
              { a.contractAnalysis with complexityScore := x } }).riskPercentage ≤
        (calculateComprehensiveRisk
          { a with contractAnalysis :=
              { a.contractAnalysis with complexityScore := x' } }).riskPercentage) ∧
    (∀ (a : AnalysisIn),
      (calculateComprehensiveRisk
          { a with contractAnalysis :=
              { a.contractAnalysis with canMint := false } }).riskPercentage ≤
        (calculateComprehensiveRisk
          { a with contractAnalysis :=
              { a.contractAnalysis with canMint := true } }).riskPercentage) := by
  refine ⟨?_, ?_, ?_, ?_, ?_, ?_, ?_, ?_, ?_, ?_, ?_, ?_, ?_, ?_⟩
  · intro a r r' h
    apply riskPercentage_mono <;> first | exact h | exact le_rfl
  · intro a t t' h
    apply riskPercentage_mono <;> first | exact taxPenalty_mono_buy h | exact le_rfl
  · intro a t t' h
    apply riskPercentage_mono <;> first | exact taxPenalty_mono_sell h | exact le_rfl
  · intro a
    apply riskPercentage_mono <;> first | exact limitsPenalty_true_le_false | exact le_rfl
  · intro a
    apply riskPercentage_mono <;> first | exact liquidityPenalty_true_le_false | exact le_rfl
  · intro a b b' h
    apply riskPercentage_mono <;> first | exact liquidityPenalty_anti_burn h | exact le_rfl
  · intro a c c' h
    apply riskPercentage_mono <;> first | exact concentrationPenalty_mono h | exact le_rfl
  · intro a s s' h
    apply riskPercentage_mono <;> first | exact h | exact le_rfl
  · intro a
    apply riskPercentage_mono <;> first | exact securityPenalty_false_le_true | exact le_rfl
  · intro a s s' h
    apply riskPercentage_mono <;> first | exact securityPenalty_anti_score h | exact le_rfl
  · intro a
    apply riskPercentage_mono <;> first | exact activityPenalty_true_le_false | exact le_rfl
  · intro a d d' h
    apply riskPercentage_mono <;> first | exact activityPenalty_mono_dev h | exact le_rfl
  · intro a x x' h
    apply riskPercentage_mono <;>
      first | exact contractPenalty_mono_complexity h | exact le_rfl
  · intro a
    apply riskPercentage_mono <;> first | exact contractPenalty_false_le_true | exact le_rfl

/-- C5 witness: at the representative input, raising the buy tax from 0
to 20 and dropping the liquidity pair each keep the risk percentage
non-decreasing. -/
theorem c5_witness :
    ((calculateComprehensiveRisk
        { baseInput with taxes := { baseInput.taxes with buyTax := 0 } }).riskPercentage ≤
      (calculateComprehensiveRisk
        { baseInput with taxes := { baseInput.taxes with buyTax := 20 } }).riskPercentage) ∧
    ((calculateComprehensiveRisk
        { baseInput with liquidity :=
            { baseInput.liquidity with hasLiquidity := true } }).riskPercentage ≤
      (calculateComprehensiveRisk
        { baseInput with liquidity :=
            { baseInput.liquidity with hasLiquidity := false } }).riskPercentage) :=
  ⟨c5_risk_percentage_monotone.2.1 baseInput 0 20 (by norm_num),
    c5_risk_percentage_monotone.2.2.2.2.1 baseInput⟩

theorem lorenzAcc_replicate_zero (n : ℕ) (total : ℚ) :
    ∀ (m i : ℕ) (cum : ℚ), lorenzAcc n total (List.replicate m 0) i cum = 0
  | 0, _, _ => rfl
  | m + 1, i, cum => by
    rw [List.replicate_succ]
    simp only [lorenzAcc]
    rw [lorenzAcc_replicate_zero n total m (i + 1) _]
    simp

theorem lorenzAcc_replicate_const (n : ℕ) (c : ℚ) (hc : c ≠ 0) (hn : (n:ℚ) ≠ 0) :
    ∀ (m i : ℕ),
      lorenzAcc n ((n:ℚ) * c) (List.replicate m c) i ((i:ℚ) / (n:ℚ)) = 0
  | 0, _ => rfl
  | m + 1, i => by
    rw [List.replicate_succ]
    simp only [lorenzAcc]
    have hshare : c / ((n:ℚ) * c) = 1 / (n:ℚ) := by
      rw [div_eq_div_iff (mul_ne_zero hn hc) hn]
      ring
    rw [hshare]
    have hcum : (i:ℚ) / (n:ℚ) + 1 / (n:ℚ) = ((i + 1 : ℕ):ℚ) / (n:ℚ) := by
      push_cast
      rw [div_add_div_same]
    rw [hcum, lorenzAcc_replicate_const n c hc hn m (i + 1)]
    push_cast
    ring

theorem gini_const_eq_zero (hs : List HolderRec) (c : ℚ) (hne : hs ≠ [])
    (hc : ∀ h ∈ hs, h.amount = c) : calculateGiniCoefficient hs = 0 := by
  have hemp : ¬(hs.isEmpty = true) := fun h => hne (List.isEmpty_iff.mp h)
  have hmap : hs.map HolderRec.amount = List.replicate hs.length c := by
    have hmem : ∀ b ∈ hs.map HolderRec.amount, b = c := by
      intro b hb
      obtain ⟨h, hh, rfl⟩ := List.mem_map.mp hb
      exact hc h hh
    have := List.eq_replicate_of_mem hmem
    rwa [List.length_map] at this
  simp only [calculateGiniCoefficient]
  rw [if_neg hemp, hmap, List.sum_replicate]
  by_cases hc0 : c = 0
  · rw [if_pos (by rw [hc0, smul_zero])]
  · have hn : (hs.length : ℚ) ≠ 0 := by
      have : 0 < hs.length := List.length_pos.mpr hne
      positivity
    rw [if_neg (by rw [nsmul_eq_mul]; exact mul_ne_zero hn hc0)]
    have hsorted : List.Sorted (fun a b => b ≤ a) (List.replicate hs.length c) :=
      List.pairwise_replicate.mpr (Or.inr le_rfl)
    rw [sortAmountsDesc, List.Sorted.insertionSort_eq hsorted, nsmul_eq_mul]
    have h0 := lorenzAcc_replicate_const hs.length c hc0 hn hs.length 0
    simp only [Nat.cast_zero, zero_div] at h0
    rw [h0, abs_zero]

theorem gini_single_holder (h0 : HolderRec) (rest : List HolderRec)
    (ha : 0 < h0.amount) (hz : ∀ h ∈ rest, h.amount = 0) :
    calculateGiniCoefficient (h0 :: rest) = 1 - 1 / ((rest.length : ℚ) + 1) := by
  have hmap : rest.map HolderRec.amount = List.replicate rest.length 0 := by
    have hmem : ∀ b ∈ rest.map HolderRec.amount, b = 0 := by
      intro b hb
      obtain ⟨h, hh, rfl⟩ := List.mem_map.mp hb
      exact hz h hh
    have := List.eq_replicate_of_mem hmem
    rwa [List.length_map] at this
  have hane : h0.amount ≠ 0 := ne_of_gt ha
  simp only [calculateGiniCoefficient, List.map_cons]
  rw [if_neg (by simp)]
  rw [hmap, List.sum_cons, List.sum_replicate, smul_zero, add_zero]
  rw [if_neg hane]
  have hsorted : List.Sorted (fun a b => b ≤ a)
      (h0.amount :: List.replicate rest.length 0) := by
    rw [List.sorted_cons]
    constructor
    · intro b hb
      rw [List.eq_of_mem_replicate hb]
      exact le_of_lt ha
    · exact List.pairwise_replicate.mpr (Or.inr le_rfl)
  rw [sortAmountsDesc, List.Sorted.insertionSort_eq hsorted]
  simp only [lorenzAcc]
  rw [lorenzAcc_replicate_zero]
  rw [div_self hane]
  have hlen : ((h0 :: rest).length : ℚ) = (rest.length : ℚ) + 1 := by
    rw [List.length_cons]
    push_cast
    ring
  rw [hlen]
  have hn1 : (0:ℚ) < (rest.length : ℚ) + 1 := by positivity
  have hfrac : 1 / ((rest.length : ℚ) + 1) ≤ 1 := by
    rw [div_le_one hn1]
    have : (0:ℚ) ≤ (rest.length : ℚ) := Nat.cast_nonneg _
    linarith
  rw [abs_of_nonneg (by push_cast; linarith)]
  push_cast
  ring

theorem lorenzAcc_abs_le (n : ℕ) (total : ℚ) (htotal : 0 < total) :
    ∀ (l : List ℚ) (i : ℕ) (cum : ℚ),
      (∀ x ∈ l, 0 ≤ x) → 1 / (n:ℚ) ≤ cum → cum + l.sum / total ≤ 1 →
      i + l.length ≤ n →
      |lorenzAcc n total l i cum| ≤ (1 - 1 / (n:ℚ)) * (l.sum / total)
  | [], i, cum, _, _, _, _ => by
    simp [lorenzAcc]
  | a :: rest, i, cum, hnn, hcum_ge, hcum_le, hlen => by
    have ha : 0 ≤ a := hnn a (List.mem_cons_self a rest)
    have hrest_nn : ∀ x ∈ rest, 0 ≤ x := fun x hx => hnn x (List.mem_cons_of_mem _ hx)
    have hrsum : 0 ≤ rest.sum := List.sum_nonneg hrest_nn
    have hlen' : (i + 1) + rest.length ≤ n := by
      rw [List.length_cons] at hlen
      omega
    have hn1 : 1 ≤ n := by omega
    have hnq : (0:ℚ) < (n:ℚ) := by exact_mod_cast Nat.lt_of_lt_of_le Nat.zero_lt_one hn1
    have hinv : 1 / (n:ℚ) ≤ 1 := by
      rw [div_le_one hnq]
      exact_mod_cast hn1
    have hshare_nn : 0 ≤ a / total := div_nonneg ha htotal.le
    have hrshare_nn : 0 ≤ rest.sum / total := div_nonneg hrsum htotal.le
    have hcum'_ge : 1 / (n:ℚ) ≤ cum + a / total := by linarith
    have hcum'_le : (cum + a / total) + rest.sum / total ≤ 1 := by
      have hh : cum + (a + rest.sum) / total ≤ 1 := by
        rw [← List.sum_cons]
        exact hcum_le
      rw [add_div] at hh
      linarith
    have hcum'_le1 : cum + a / total ≤ 1 := by linarith
    have hrec := lorenzAcc_abs_le n total htotal rest (i + 1) (cum + a / total)
      hrest_nn hcum'_ge hcum'_le hlen'
    have hidx1 : (1:ℚ) ≤ (i:ℚ) + 1 := by
      have : (0:ℚ) ≤ (i:ℚ) := Nat.cast_nonneg _
      linarith
    have hidxn : (i:ℚ) + 1 ≤ (n:ℚ) := by
      have : i + 1 ≤ n := by omega
      exact_mod_cast this
    have hfrac_ge : 1 / (n:ℚ) ≤ ((i:ℚ) + 1) / (n:ℚ) :=
      (div_le_div_iff_of_pos_right hnq).mpr hidx1
    have hfrac_le1 : ((i:ℚ) + 1) / (n:ℚ) ≤ 1 := by
      rw [div_le_one hnq]
      exact hidxn
    have habs : |cum + a / total - ((i:ℚ) + 1) / (n:ℚ)| ≤ 1 - 1 / (n:ℚ) := by
      rw [abs_le]
      constructor
      · linarith
      · linarith
    simp only [lorenzAcc]
    calc |(cum + a / total - ((i:ℚ) + 1) / (n:ℚ)) * (a / total) +
            lorenzAcc n total rest (i + 1) (cum + a / total)|
        ≤ |(cum + a / total - ((i:ℚ) + 1) / (n:ℚ)) * (a / total)| +
            |lorenzAcc n total rest (i + 1) (cum + a / total)| := abs_add _ _
      _ ≤ (1 - 1 / (n:ℚ)) * (a / total) + (1 - 1 / (n:ℚ)) * (rest.sum / total) := by
          apply add_le_add
          · rw [abs_mul, abs_of_nonneg hshare_nn]
            exact mul_le_mul_of_nonneg_right habs hshare_nn
          · exact hrec
      _ = (1 - 1 / (n:ℚ)) * ((a :: rest).sum / total) := by
          rw [List.sum_cons, add_div]
          ring

theorem gini_le_max (hs : List HolderRec) (hnn : ∀ h ∈ hs, 0 ≤ h.amount) :
    calculateGiniCoefficient hs ≤ 1 - 1 / (hs.length : ℚ) := by
  by_cases hemp : hs.isEmpty = true
  · have he : hs = [] := List.isEmpty_iff.mp hemp
    subst he
    simp [calculateGiniCoefficient]
  · have hne : hs ≠ [] := fun h => hemp (by rw [h]; rfl)
    have hn1 : 1 ≤ hs.length := List.length_pos.mpr hne
    have hnq : (0:ℚ) < (hs.length : ℚ) := by exact_mod_cast hn1
    have hinv : 1 / (hs.length : ℚ) ≤ 1 := by
      rw [div_le_one hnq]
      exact_mod_cast hn1
    simp only [calculateGiniCoefficient]
    rw [if_neg hemp]
    by_cases htz : (hs.map HolderRec.amount).sum = 0
    · rw [if_pos htz]
      linarith
    · rw [if_neg htz]
      have hsum_nn : 0 ≤ (hs.map HolderRec.amount).sum := by
        apply List.sum_nonneg
        intro x hx
        obtain ⟨h, hh, rfl⟩ := List.mem_map.mp hx
        exact hnn h hh
      have htpos : 0 < (hs.map HolderRec.amount).sum := lt_of_le_of_ne hsum_nn (Ne.symm htz)
      have hperm : List.Perm (sortAmountsDesc (hs.map HolderRec.amount))
          (hs.map HolderRec.amount) := List.perm_insertionSort _ _
      have hssum : (sortAmountsDesc (hs.map HolderRec.amount)).sum =
          (hs.map HolderRec.amount).sum := hperm.sum_eq
      have hslen : (sortAmountsDesc (hs.map HolderRec.amount)).length = hs.length := by
        rw [hperm.length_eq, List.length_map]
      have hsorted : List.Sorted (fun a b => b ≤ a)
          (sortAmountsDesc (hs.map HolderRec.amount)) := List.sorted_insertionSort _ _
      have hsnn : ∀ x ∈ sortAmountsDesc (hs.map HolderRec.amount), 0 ≤ x := by
        intro x hx
        obtain ⟨h, hh, rfl⟩ := List.mem_map.mp (hperm.mem_iff.mp hx)
        exact hnn h hh
      obtain ⟨a, tl, hsplit⟩ : ∃ x xs,
          sortAmountsDesc (hs.map HolderRec.amount) = x :: xs := by
        cases hcase : sortAmountsDesc (hs.map HolderRec.amount) with
        | nil =>
          exfalso
          rw [hcase] at hslen
          simp at hslen
          omega
        | cons x xs => exact ⟨x, xs, rfl⟩
      rw [hsplit] at hssum hslen hsorted hsnn
      have hta : ∀ x ∈ tl, x ≤ a := List.rel_of_sorted_cons hsorted
      have ha_nn : 0 ≤ a := hsnn a (List.mem_cons_self a tl)
      have htl_nn : ∀ x ∈ tl, 0 ≤ x := fun x hx => hsnn x (List.mem_cons_of_mem _ hx)
      have htlsum_nn : 0 ≤ tl.sum := List.sum_nonneg htl_nn
      have hsum_eq : a + tl.sum = (hs.map HolderRec.amount).sum := by
        rw [← hssum, List.sum_cons]
      have hlen_eq : tl.length + 1 = hs.length := by
        rw [← hslen, List.length_cons]
      have htl_le : tl.sum ≤ (tl.length : ℚ) * a := by
        have := List.sum_le_card_nsmul tl a hta
        rwa [nsmul_eq_mul] at this
      have hhead_avg : (hs.map HolderRec.amount).sum ≤ (hs.length : ℚ) * a := by
        have hcast : ((tl.length : ℚ) + 1) = (hs.length : ℚ) := by
          exact_mod_cast congrArg (Nat.cast : ℕ → ℚ) hlen_eq
        calc (hs.map HolderRec.amount).sum = a + tl.sum := hsum_eq.symm
          _ ≤ a + (tl.length : ℚ) * a := by linarith
          _ = ((tl.length : ℚ) + 1) * a := by ring
          _ = (hs.length : ℚ) * a := by rw [hcast]
      have hshare_ge : 1 / (hs.length : ℚ) ≤ a / (hs.map HolderRec.amount).sum := by
        rw [div_le_div_iff₀ hnq htpos]
        calc 1 * (hs.map HolderRec.amount).sum = (hs.map HolderRec.amount).sum := one_mul _
          _ ≤ (hs.length : ℚ) * a := hhead_avg
          _ = a * (hs.length : ℚ) := mul_comm _ _
      have hshare_le1 : a / (hs.map HolderRec.amount).sum ≤ 1 := by
        rw [div_le_one htpos]
        linarith
      have hshare_nn : 0 ≤ a / (hs.map HolderRec.amount).sum := div_nonneg ha_nn htpos.le
      have hsharesum : a / (hs.map HolderRec.amount).sum +
          tl.sum / (hs.map HolderRec.amount).sum = 1 := by
        rw [div_add_div_same, hsum_eq, div_self (ne_of_gt htpos)]
      rw [hsplit]
      simp only [lorenzAcc, Nat.cast_zero, zero_add]
      have hrec := lorenzAcc_abs_le hs.length (hs.map HolderRec.amount).sum htpos tl 1
        (a / (hs.map HolderRec.amount).sum) htl_nn hshare_ge (by linarith)
        (by omega)
      have habs : |a / (hs.map HolderRec.amount).sum - 1 / (hs.length : ℚ)| ≤
          1 - 1 / (hs.length : ℚ) := by
        rw [abs_le]
        constructor
        · linarith
        · linarith
      calc |(a / (hs.map HolderRec.amount).sum - 1 / (hs.length : ℚ)) *
              (a / (hs.map HolderRec.amount).sum) +
              lorenzAcc hs.length (hs.map HolderRec.amount).sum tl 1
                (a / (hs.map HolderRec.amount).sum)|
          ≤ |(a / (hs.map HolderRec.amount).sum - 1 / (hs.length : ℚ)) *
              (a / (hs.map HolderRec.amount).sum)| +
              |lorenzAcc hs.length (hs.map HolderRec.amount).sum tl 1
                (a / (hs.map HolderRec.amount).sum)| := abs_add _ _
        _ ≤ (1 - 1 / (hs.length : ℚ)) * (a / (hs.map HolderRec.amount).sum) +
              (1 - 1 / (hs.length : ℚ)) * (tl.sum / (hs.map HolderRec.amount).sum) := by
            apply add_le_add
            · rw [abs_mul, abs_of_nonneg hshare_nn]
              exact mul_le_mul_of_nonneg_right habs hshare_nn
            · exact hrec
        _ = (1 - 1 / (hs.length : ℚ)) *
              (a / (hs.map HolderRec.amount).sum +
                tl.sum / (hs.map HolderRec.amount).sum) := by ring
        _ = 1 - 1 / (hs.length : ℚ) := by rw [hsharesum, mul_one]

/-- C7.  The Gini-style coefficient is 0 on every non-empty sample in
which all holders have equal balance; on a sample in which a single
holder owns everything (all others zero) it equals 1 - 1/n, which is its
maximum over all samples of n holders with non-negative balances and
tends to 1 — the coefficient's supremum — as the sample grows. -/
theorem c7_gini_extremes :
    (∀ (hs : List HolderRec) (c : ℚ), hs ≠ [] → (∀ h ∈ hs, h.amount = c) →
      calculateGiniCoefficient hs = 0) ∧
    (∀ (h0 : HolderRec) (rest : List HolderRec), 0 < h0.amount →
      (∀ h ∈ rest, h.amount = 0) →
      calculateGiniCoefficient (h0 :: rest) = 1 - 1 / ((rest.length : ℚ) + 1)) ∧
    (∀ hs : List HolderRec, (∀ h ∈ hs, 0 ≤ h.amount) →
      calculateGiniCoefficient hs ≤ 1 - 1 / (hs.length : ℚ)) :=
  ⟨gini_const_eq_zero, gini_single_holder, gini_le_max⟩

/-- C7 witness: two equal holders give coefficient 0; one holder owning
everything among three gives 1 - 1/3, which is also the bound for
three-holder samples. -/
theorem c7_witness :
    calculateGiniCoefficient [HolderRec.mk "a" 5 1, HolderRec.mk "b" 5 1] = 0 ∧
    calculateGiniCoefficient
        [HolderRec.mk "w" 10 0, HolderRec.mk "x" 0 0, HolderRec.mk "y" 0 0] =
      1 - 1 / ((2:ℚ) + 1) ∧
    calculateGiniCoefficient
        [HolderRec.mk "w" 10 0, HolderRec.mk "x" 0 0, HolderRec.mk "y" 0 0] ≤
      1 - 1 / (3:ℚ) :=
  ⟨c7_gini_extremes.1 [HolderRec.mk "a" 5 1, HolderRec.mk "b" 5 1] 5 (by simp) (by simp),
    by
      simpa using c7_gini_extremes.2.1 (HolderRec.mk "w" 10 0)
        [HolderRec.mk "x" 0 0, HolderRec.mk "y" 0 0] (by norm_num) (by simp),
    by
      have h := c7_gini_extremes.2.2
        [HolderRec.mk "w" 10 0, HolderRec.mk "x" 0 0, HolderRec.mk "y" 0 0]
        (by simp)
      simpa using h⟩
